import Mathlib

/-!
# Verification of the stock-forecasting pipeline (`src/app.py`)

Shallow embedding of the forecasting pipeline: data preparation
(`fetch_stock_data`), model forecasting (`make_forecast` over the external
Prophet model), metric computation (`calculate_performance_metrics` over the
external sklearn metric functions), and the evaluation slice of `main`.

Calendar dates are embedded as `Nat` (days since an epoch); float values as
`ℚ` (a missing / non-finite value as `none : Option ℚ`).
-/

/-- One row of the frame returned by `yf.download` (src/app.py line 12):
the OHLCV columns plus `Adj Close`, indexed by date.  A missing or
non-finite cell is `none`. -/
structure YfRow where
  date : Nat
  openPrice : Option ℚ
  high : Option ℚ
  low : Option ℚ
  close : Option ℚ
  adjClose : Option ℚ
  volume : Option ℚ
deriving DecidableEq, Repr

/-- Builds a downloaded row carrying only a date and an `Adj Close` value
(the other columns are never read by the pipeline). -/
def mkRow (d : Nat) (v : Option ℚ) : YfRow :=
  ⟨d, none, none, none, none, v, none⟩

/-- `fetch_stock_data` (src/app.py lines 11–15): keeps the `Adj Close`
column of the downloaded frame, resets the index, and renames
`Date → ds`, `Adj Close → y`.  It performs no sorting, no filtering of
missing values, no de-duplication, and no size check: each input row
yields exactly one output pair, in input order. -/
def fetch_stock_data (stock_data : List YfRow) : List (Nat × Option ℚ) :=
  stock_data.map fun r => (r.date, r.adjClose)

/-- Modelled from the spec (§4.2): the fitted state of the pluggable
`ForecastModel` capability (the external Prophet library in the source,
which is not part of this repository).  `history` holds the timestamps of
the fitted Series; `yhat` is the deterministic point-estimate function of
the additive decomposition; `spreadLo`/`spreadHi` are the non-negative
half-widths of the simulated uncertainty band, which depend on the random
seed of the interval simulation (first argument) but the point estimate
does not. -/
structure FittedModel where
  history : List Nat
  yhat : Nat → ℚ
  spreadLo : Nat → Nat → ℚ
  spreadHi : Nat → Nat → ℚ
  spreadLo_nonneg : ∀ s t, 0 ≤ spreadLo s t
  spreadHi_nonneg : ∀ s t, 0 ≤ spreadHi s t

/-- One row of the forecast frame returned by `model.predict`
(columns `ds`, `yhat`, `yhat_lower`, `yhat_upper`, src/app.py line 90). -/
structure ForecastPoint where
  ds : Nat
  yhat : ℚ
  yhat_lower : ℚ
  yhat_upper : ℚ
deriving DecidableEq, Repr

/-- Modelled from the spec (§4.2): the last observed timestamp of the
fitted series (Prophet's `history_dates.max()`). -/
def lastDate (m : FittedModel) : Nat :=
  m.history.foldl max 0

/-- Modelled from the spec (§4.2): `model.make_future_dataframe(periods)`
(called at src/app.py line 27) returns the fitted history timestamps
followed by exactly `periods` consecutive calendar days strictly after the
last observed timestamp. -/
def make_future_dataframe (m : FittedModel) (periods : Nat) : List Nat :=
  m.history ++ (List.range periods).map fun i => lastDate m + 1 + i

/-- Modelled from the spec (§4.2): `model.predict(future)` produces one
`ForecastPoint` per timestamp of the future frame, in order; the point
estimate is deterministic, the interval is the estimate widened by the
seed-dependent non-negative spreads. -/
def FittedModel.predict (m : FittedModel) (frame : List Nat) (seed : Nat) :
    List ForecastPoint :=
  frame.map fun t =>
    ⟨t, m.yhat t, m.yhat t - m.spreadLo seed t, m.yhat t + m.spreadHi seed t⟩

/-- `make_forecast` (src/app.py lines 26–29): builds the future frame for
`periods` extra days and predicts over it.  The `seed` argument models the
state of the random number generator used by the interval simulation. -/
def make_forecast (m : FittedModel) (periods : Nat) (seed : Nat) :
    List ForecastPoint :=
  m.predict (make_future_dataframe m periods) seed

/-- Modelled from the spec (§4.4): `sklearn.metrics.mean_absolute_error`
(called at src/app.py line 34; sklearn is not part of this repository):
the mean of the absolute differences of two equal-length non-empty value
sequences; the library rejects empty or length-mismatched input with an
error, embedded as `none`. -/
def mean_absolute_error (actual predicted : List ℚ) : Option ℚ :=
  if actual.length = predicted.length ∧ actual ≠ [] then
    some ((((actual.zip predicted).map fun q => |q.1 - q.2|).sum) / actual.length)
  else none

/-- Modelled from the spec (§4.4): `sklearn.metrics.mean_squared_error`
(called at src/app.py line 35): the mean of the squared differences, with
the same error behaviour as `mean_absolute_error`. -/
def mean_squared_error (actual predicted : List ℚ) : Option ℚ :=
  if actual.length = predicted.length ∧ actual ≠ [] then
    some ((((actual.zip predicted).map fun q => (q.1 - q.2) ^ 2).sum) / actual.length)
  else none

/-- The MAE/MSE part of the dict returned by `calculate_performance_metrics`
(src/app.py line 37); the RMSE entry is `np.sqrt` of `mse` and is embedded
as the derived real `rmse` below. -/
structure MetricsReport where
  mae : ℚ
  mse : ℚ
deriving DecidableEq, Repr

/-- `calculate_performance_metrics` (src/app.py lines 33–37): computes MAE
and MSE of the two value sequences; an error raised by either sklearn
metric propagates (embedded as `none`). -/
def calculate_performance_metrics (actual predicted : List ℚ) :
    Option MetricsReport :=
  match mean_absolute_error actual predicted, mean_squared_error actual predicted with
  | some a, some m => some ⟨a, m⟩
  | _, _ => none

/-- The RMSE entry of the metrics dict: `np.sqrt(mse)` (src/app.py line 36). -/
noncomputable def rmse (r : MetricsReport) : ℝ :=
  Real.sqrt (r.mse : ℝ)

/-- The pairs of values actually scored by `main` (src/app.py lines
114–116): `actual = df["y"]` zipped positionally with
`predicted = forecast["yhat"][:len(df)]`. -/
def scored_pairs (df : List (Nat × ℚ)) (forecast : List ForecastPoint) :
    List (ℚ × ℚ) :=
  (df.map Prod.snd).zip ((forecast.map ForecastPoint.yhat).take df.length)

/-- The metric computation of `main` (src/app.py lines 114–116): the
positional slices fed into `calculate_performance_metrics`. -/
def main_metrics (df : List (Nat × ℚ)) (forecast : List ForecastPoint) :
    Option MetricsReport :=
  calculate_performance_metrics (df.map Prod.snd)
    ((forecast.map ForecastPoint.yhat).take df.length)

/-- Stated from the spec's words (§4.4), for comparison with the code's
positional pairing: the timestamp-matched pairs — an (actual, predicted)
value pair for each timestamp present in both sequences, mismatched
timestamps excluded, nothing interpolated. -/
def spec_matched_pairs (actual : List (Nat × ℚ)) (forecast : List ForecastPoint) :
    List (ℚ × ℚ) :=
  actual.filterMap fun p =>
    ((forecast.map fun q => (q.ds, q.yhat)).lookup p.1).map fun v => (p.2, v)

/-- The options of the forecast-horizon selectbox (src/app.py lines 68–72). -/
def horizon_options : List String :=
  ["1 year", "2 years", "3 years", "5 years"]

/-- The `horizon_mapping` dict (src/app.py line 75). -/
def horizon_mapping : List (String × Nat) :=
  [("1 year", 365), ("2 years", 730), ("3 years", 1095), ("5 years", 1825)]

/-- `forecast_days = horizon_mapping[forecast_horizon]` (src/app.py
line 76); a key outside the dict is a lookup error (`none`). -/
def forecast_days (choice : String) : Option Nat :=
  horizon_mapping.lookup choice

/-- A concrete fitted model used to instantiate the general theorems:
two observations (days 0 and 3), constant point estimate 2, constant
uncertainty spread 1 on each side. -/
def m0 : FittedModel where
  history := [0, 3]
  yhat := fun _ => 2
  spreadLo := fun _ _ => 1
  spreadHi := fun _ _ => 1
  spreadLo_nonneg := fun _ _ => by norm_num
  spreadHi_nonneg := fun _ _ => by norm_num

/-- C1: `main` does not score by matching timestamps — it slices the first
`len(df)` predicted values positionally (src/app.py lines 114–116).  On an
actual series with timestamps {0, 1} and a forecast with timestamps
{1, 2, 3}, the code scores the pairs (10, 5) and (11, 6), comparing values
at different timestamps, while the spec's timestamp-matching policy (§4.4)
yields the single pair (11, 5) at the shared timestamp 1. -/
theorem c1_positional_slicing_not_timestamp_matching :
    scored_pairs [(0, 10), (1, 11)] [⟨1, 5, 0, 0⟩, ⟨2, 6, 0, 0⟩, ⟨3, 7, 0, 0⟩]
      = [(10, 5), (11, 6)]
    ∧ spec_matched_pairs [(0, 10), (1, 11)] [⟨1, 5, 0, 0⟩, ⟨2, 6, 0, 0⟩, ⟨3, 7, 0, 0⟩]
      = [(11, 5)] := by
  constructor <;> decide

/-- C2 counterexample: a raw input of exactly one row does not raise any
error — `fetch_stock_data` returns a one-point series. -/
theorem c2_single_row_returns_series :
    fetch_stock_data [mkRow 5 (some 10)] = [(5, some 10)] := rfl

/-- C2 (amended): the preparation step is total — it returns exactly one
(timestamp, adjusted-close) output row per input row and never fails; no
`EmptySeriesError` exists in the code, so undersized inputs are not
rejected by the preparation step. -/
theorem c2_prepare_total (stock_data : List YfRow) :
    (fetch_stock_data stock_data).length = stock_data.length := by
  simp [fetch_stock_data]

/-- C5 counterexample: an actual series and a forecast sharing zero
timestamps (spec-matched pair set is empty) still produce a MetricsReport:
the code pairs positionally and returns MAE = 3, MSE = 9 instead of
failing with `InsufficientOverlapError`. -/
theorem c5_zero_overlap_produces_report :
    spec_matched_pairs [(0, 10)] [⟨5, 7, 0, 0⟩] = []
    ∧ main_metrics [(0, 10)] [⟨5, 7, 0, 0⟩] = some ⟨3, 9⟩ := by
  refine ⟨by decide, ?_⟩
  simp [main_metrics, calculate_performance_metrics, mean_absolute_error,
    mean_squared_error]
  norm_num

/-- C5 (amended): zero timestamp overlap does not by itself abort the
evaluation; the metric computation fails (an error of the external metric
library, not an `InsufficientOverlapError`) exactly when the value lists
it receives are of unequal length or empty. -/
theorem c5_error_condition (actual predicted : List ℚ) :
    calculate_performance_metrics actual predicted = none
      ↔ (actual.length ≠ predicted.length ∨ actual = []) := by
  by_cases h : actual.length = predicted.length ∧ actual ≠ []
  · simp [calculate_performance_metrics, mean_absolute_error,
      mean_squared_error, h, h.1, h.2]
  · rw [not_and_or, not_not] at h
    constructor
    · intro _
      tauto
    · intro _
      rcases Classical.em (actual.length = predicted.length) with he | he <;>
        rcases Classical.em (actual = []) with hn | hn <;>
        simp_all [calculate_performance_metrics, mean_absolute_error,
          mean_squared_error]

/-- C6 counterexample: the preparation step does not sort — an unsorted
raw input passes through unchanged, and the output timestamps are not
strictly ascending. -/
theorem c6_no_sorting :
    fetch_stock_data [mkRow 2 (some 1), mkRow 1 (some 2)]
      = [(2, some 1), (1, some 2)]
    ∧ ¬ ((fetch_stock_data [mkRow 2 (some 1), mkRow 1 (some 2)]).map
          Prod.fst).Pairwise (· < ·) := by
  constructor <;> decide

/-- C6 (amended): the preparation step performs no sorting, no filtering
and no de-duplication — it returns the input timestamps unchanged and in
input order; its output is strictly ascending precisely when the upstream
rows already are (here: the sorted direction). -/
theorem c6_passthrough_preserves_order (stock_data : List YfRow)
    (hsorted : (stock_data.map YfRow.date).Pairwise (· < ·)) :
    (fetch_stock_data stock_data).map Prod.fst = stock_data.map YfRow.date
    ∧ ((fetch_stock_data stock_data).map Prod.fst).Pairwise (· < ·) := by
  have hmap : (fetch_stock_data stock_data).map Prod.fst
      = stock_data.map YfRow.date := by
    simp [fetch_stock_data]
  exact ⟨hmap, hmap ▸ hsorted⟩

/-- C6 witness: the amended statement at a concrete sorted input. -/
theorem c6_passthrough_preserves_order_witness :
    (([mkRow 1 (some 2), mkRow 3 (some 4)].map YfRow.date).Pairwise (· < ·))
    ∧ ((fetch_stock_data [mkRow 1 (some 2), mkRow 3 (some 4)]).map Prod.fst
        = [mkRow 1 (some 2), mkRow 3 (some 4)].map YfRow.date
      ∧ ((fetch_stock_data [mkRow 1 (some 2), mkRow 3 (some 4)]).map
          Prod.fst).Pairwise (· < ·)) :=
  ⟨by decide, c6_passthrough_preserves_order _ (by decide)⟩

/-- C9: every choice offered by the horizon selectbox maps to one of
exactly the four horizons 365, 730, 1095 and 1825 days; in particular no
choice reaches a horizon of 0. -/
theorem c9_horizon_values (choice : String) (hmem : choice ∈ horizon_options) :
    ∃ d, forecast_days choice = some d
      ∧ (d = 365 ∨ d = 730 ∨ d = 1095 ∨ d = 1825) ∧ d ≠ 0 := by
  fin_cases hmem <;> exact ⟨_, rfl, by norm_num, by norm_num⟩

theorem init_le_foldl_max (l : List Nat) (a : Nat) : a ≤ l.foldl max a := by
  induction l generalizing a with
  | nil => exact le_refl a
  | cons b t ih => exact le_trans (le_max_left a b) (ih (max a b))

theorem mem_le_foldl_max {l : List Nat} {x : Nat} (hx : x ∈ l) (a : Nat) :
    x ≤ l.foldl max a := by
  induction l generalizing a with
  | nil => cases hx
  | cons b t ih =>
    rcases List.mem_cons.mp hx with rfl | hxt
    · exact le_trans (le_max_right a x) (init_le_foldl_max t (max a x))
    · exact ih hxt (max a b)

theorem mem_history_le_lastDate {m : FittedModel} {x : Nat}
    (hx : x ∈ m.history) : x ≤ lastDate m :=
  mem_le_foldl_max hx 0

/-- C7: every `ForecastPoint` produced by a predict call satisfies the
interval invariant `yhat_lower ≤ yhat ≤ yhat_upper`. -/
theorem c7_interval_invariant (m : FittedModel) (periods seed : Nat)
    (p : ForecastPoint) (hp : p ∈ make_forecast m periods seed) :
    p.yhat_lower ≤ p.yhat ∧ p.yhat ≤ p.yhat_upper := by
  simp only [make_forecast, FittedModel.predict, List.mem_map] at hp
  obtain ⟨t, -, rfl⟩ := hp
  exact ⟨sub_le_self _ (m.spreadLo_nonneg seed t),
    le_add_of_nonneg_right (m.spreadHi_nonneg seed t)⟩

/-- C7 witness: the invariant at a concrete point of a concrete forecast. -/
theorem c7_interval_invariant_witness :
    (⟨0, 2, 1, 3⟩ : ForecastPoint) ∈ make_forecast m0 1 0
    ∧ ((⟨0, 2, 1, 3⟩ : ForecastPoint).yhat_lower
          ≤ (⟨0, 2, 1, 3⟩ : ForecastPoint).yhat
      ∧ (⟨0, 2, 1, 3⟩ : ForecastPoint).yhat
          ≤ (⟨0, 2, 1, 3⟩ : ForecastPoint).yhat_upper) := by
  have hmem : (⟨0, 2, 1, 3⟩ : ForecastPoint) ∈ make_forecast m0 1 0 := by
    simp [make_forecast, FittedModel.predict, make_future_dataframe,
      lastDate, m0]
    norm_num
  exact ⟨hmem, c7_interval_invariant m0 1 0 _ hmem⟩

/-- C8: the point estimates of a forecast do not depend on the state of
the interval-simulation random number generator — predicting twice on the
same unmodified fitted model with the same horizon yields identical
point_estimate sequences. -/
theorem c8_predict_reproducible (m : FittedModel) (periods s₁ s₂ : Nat) :
    (make_forecast m periods s₁).map ForecastPoint.yhat
      = (make_forecast m periods s₂).map ForecastPoint.yhat := by
  simp [make_forecast, FittedModel.predict, List.map_map, Function.comp]

/-- C3: for a fitted series of at least the minimum fit size the forecast
timestamps are the fitted history followed by exactly `periods` further
consecutive calendar days after the last observed timestamp, strictly
ascending, and the future-only timestamps number exactly `periods`. -/
theorem c3_forecast_coverage (m : FittedModel) (periods seed : Nat)
    (_hfit : 2 ≤ m.history.length) (hsorted : m.history.Pairwise (· < ·)) :
    (make_forecast m periods seed).map ForecastPoint.ds
        = m.history ++ (List.range periods).map (fun i => lastDate m + 1 + i)
    ∧ ((make_forecast m periods seed).map ForecastPoint.ds).Pairwise (· < ·)
    ∧ (((make_forecast m periods seed).map ForecastPoint.ds).filter
          (fun t => lastDate m < t)).length = periods := by
  have hmap : (make_forecast m periods seed).map ForecastPoint.ds
      = m.history ++ (List.range periods).map (fun i => lastDate m + 1 + i) := by
    simp [make_forecast, FittedModel.predict, make_future_dataframe,
      List.map_map, Function.comp_def]
  refine ⟨hmap, ?_, ?_⟩
  · rw [hmap]
    refine List.pairwise_append.mpr ⟨hsorted, ?_, ?_⟩
    · exact (List.pairwise_lt_range periods).map _ (fun a b h => by omega)
    · intro x hx y hy
      obtain ⟨i, -, rfl⟩ := List.mem_map.mp hy
      have := mem_history_le_lastDate hx
      omega
  · rw [hmap, List.filter_append]
    have h1 : m.history.filter (fun t => lastDate m < t) = [] := by
      refine List.filter_eq_nil_iff.mpr fun a ha => ?_
      have := mem_history_le_lastDate ha
      simp
      omega
    have h2 : ((List.range periods).map (fun i => lastDate m + 1 + i)).filter
        (fun t => lastDate m < t)
        = (List.range periods).map (fun i => lastDate m + 1 + i) := by
      refine List.filter_eq_self.mpr fun a ha => ?_
      obtain ⟨i, -, rfl⟩ := List.mem_map.mp ha
      simp
      omega
    rw [h1, h2]
    simp

/-- C3 witness: the coverage statement at a concrete fitted model with
history [0, 3], horizon 2 and seed 0. -/
theorem c3_forecast_coverage_witness :
    (2 ≤ m0.history.length ∧ m0.history.Pairwise (· < ·))
    ∧ ((make_forecast m0 2 0).map ForecastPoint.ds
          = m0.history ++ (List.range 2).map (fun i => lastDate m0 + 1 + i)
      ∧ ((make_forecast m0 2 0).map ForecastPoint.ds).Pairwise (· < ·)
      ∧ (((make_forecast m0 2 0).map ForecastPoint.ds).filter
            (fun t => lastDate m0 < t)).length = 2) :=
  ⟨⟨by decide, by decide⟩, c3_forecast_coverage m0 2 0 (by decide) (by decide)⟩

theorem sum_sq_list_nonneg (l : List ℚ) :
    0 ≤ (l.map fun e => e ^ 2).sum := by
  refine List.sum_nonneg fun x hx => ?_
  obtain ⟨e, -, rfl⟩ := List.mem_map.mp hx
  positivity

theorem sum_abs_list_nonneg (l : List ℚ) :
    0 ≤ (l.map fun e => |e|).sum := by
  refine List.sum_nonneg fun x hx => ?_
  obtain ⟨e, -, rfl⟩ := List.mem_map.mp hx
  exact abs_nonneg e

theorem cross_term_le (d : ℚ) (l : List ℚ) :
    2 * |d| * ((l.map fun e => |e|).sum)
      ≤ (l.length : ℚ) * d ^ 2 + (l.map fun e => e ^ 2).sum := by
  induction l with
  | nil => simp
  | cons e t ih =>
    have h1 : 2 * |d| * |e| ≤ d ^ 2 + e ^ 2 := by
      have h2 := two_mul_le_add_sq |d| |e|
      simpa [sq_abs] using h2
    simp only [List.map_cons, List.sum_cons, List.length_cons]
    push_cast
    nlinarith [ih]

theorem abs_sum_sq_le (l : List ℚ) :
    ((l.map fun e => |e|).sum) ^ 2
      ≤ (l.length : ℚ) * (l.map fun e => e ^ 2).sum := by
  induction l with
  | nil => simp
  | cons d t ih =>
    have hc := cross_term_le d t
    have ha : |d| ^ 2 = d ^ 2 := sq_abs d
    simp only [List.map_cons, List.sum_cons, List.length_cons]
    push_cast
    nlinarith [ih, hc, ha]

/-- C4: on every accepted pair of value sequences the metric computation
returns MAE = mean of the absolute differences and MSE = mean of the
squared differences over exactly the given pair set, MSE is non-negative,
and RMSE (the square root of MSE) squares back to MSE exactly. -/
theorem c4_metrics_formulas (actual predicted : List ℚ)
    (hlen : actual.length = predicted.length) (hne : actual ≠ []) :
    ∃ r : MetricsReport,
      calculate_performance_metrics actual predicted = some r
      ∧ r.mae = (((actual.zip predicted).map fun q => |q.1 - q.2|).sum)
          / actual.length
      ∧ r.mse = (((actual.zip predicted).map fun q => (q.1 - q.2) ^ 2).sum)
          / actual.length
      ∧ 0 ≤ r.mse
      ∧ rmse r ^ 2 = (r.mse : ℝ) := by
  have hS2 : (0 : ℚ)
      ≤ ((actual.zip predicted).map fun q => (q.1 - q.2) ^ 2).sum := by
    refine List.sum_nonneg fun x hx => ?_
    obtain ⟨q, -, rfl⟩ := List.mem_map.mp hx
    positivity
  have hmse : (0 : ℚ)
      ≤ (((actual.zip predicted).map fun q => (q.1 - q.2) ^ 2).sum)
          / actual.length :=
    div_nonneg hS2 (by positivity)
  refine ⟨⟨(((actual.zip predicted).map fun q => |q.1 - q.2|).sum)
        / actual.length,
      (((actual.zip predicted).map fun q => (q.1 - q.2) ^ 2).sum)
        / actual.length⟩, ?_, rfl, rfl, hmse, ?_⟩
  · simp [calculate_performance_metrics, mean_absolute_error,
      mean_squared_error, hlen, hne]
  · exact Real.sq_sqrt (by exact_mod_cast hmse)

/-- C4 witness: the formulas at the concrete pair set
actual = [1, 2], predicted = [1, 3]. -/
theorem c4_metrics_formulas_witness :
    (([1, 2] : List ℚ).length = ([1, 3] : List ℚ).length
      ∧ ([1, 2] : List ℚ) ≠ [])
    ∧ ∃ r : MetricsReport,
      calculate_performance_metrics [1, 2] [1, 3] = some r
      ∧ r.mae = (((([1, 2] : List ℚ).zip ([1, 3] : List ℚ)).map
            fun q => |q.1 - q.2|).sum) / ([1, 2] : List ℚ).length
      ∧ r.mse = (((([1, 2] : List ℚ).zip ([1, 3] : List ℚ)).map
            fun q => (q.1 - q.2) ^ 2).sum) / ([1, 2] : List ℚ).length
      ∧ 0 ≤ r.mse
      ∧ rmse r ^ 2 = (r.mse : ℝ) :=
  ⟨⟨by decide, by decide⟩, c4_metrics_formulas [1, 2] [1, 3] rfl (by decide)⟩

/-- C10: on every accepted pair of value sequences all three metrics are
non-negative and MAE never exceeds RMSE. -/
theorem c10_mae_le_rmse (actual predicted : List ℚ)
    (hlen : actual.length = predicted.length) (hne : actual ≠ []) :
    ∃ r : MetricsReport,
      calculate_performance_metrics actual predicted = some r
      ∧ 0 ≤ r.mae ∧ 0 ≤ r.mse ∧ 0 ≤ rmse r ∧ (r.mae : ℝ) ≤ rmse r := by
  classical
  set l : List ℚ := (actual.zip predicted).map fun q => q.1 - q.2 with hl
  have hmap1 : (l.map fun e => |e|)
      = (actual.zip predicted).map fun q => |q.1 - q.2| := by
    simp [hl, List.map_map, Function.comp_def]
  have hmap2 : (l.map fun e => e ^ 2)
      = (actual.zip predicted).map fun q => (q.1 - q.2) ^ 2 := by
    simp [hl, List.map_map, Function.comp_def]
  have hlen2 : l.length = actual.length := by
    simp [hl, List.length_zip, hlen]
  have key := abs_sum_sq_le l
  rw [hmap1, hmap2, hlen2] at key
  have hS1 : (0 : ℚ)
      ≤ ((actual.zip predicted).map fun q => |q.1 - q.2|).sum := by
    rw [← hmap1]
    exact sum_abs_list_nonneg l
  have hS2 : (0 : ℚ)
      ≤ ((actual.zip predicted).map fun q => (q.1 - q.2) ^ 2).sum := by
    rw [← hmap2]
    exact sum_sq_list_nonneg l
  have hn : (0 : ℚ) < actual.length := by
    have : actual.length ≠ 0 := fun h => hne (List.length_eq_zero.mp h)
    exact_mod_cast Nat.pos_of_ne_zero this
  set M : ℚ := (((actual.zip predicted).map fun q => |q.1 - q.2|).sum)
      / actual.length with hM
  set E : ℚ := (((actual.zip predicted).map fun q => (q.1 - q.2) ^ 2).sum)
      / actual.length with hE
  have hmae : (0 : ℚ) ≤ M := div_nonneg hS1 hn.le
  have hmse : (0 : ℚ) ≤ E := div_nonneg hS2 hn.le
  have hsq : M ^ 2 ≤ E := by
    rw [hM, hE, div_pow, div_le_div_iff₀ (by positivity) hn]
    nlinarith [key, hn]
  refine ⟨⟨M, E⟩, ?_, hmae, hmse, Real.sqrt_nonneg _, ?_⟩
  · simp [calculate_performance_metrics, mean_absolute_error,
      mean_squared_error, hlen, hne, hM, hE]
  · have hmae' : (0 : ℝ) ≤ ((M : ℚ) : ℝ) := by exact_mod_cast hmae
    have hsq' : ((M : ℚ) : ℝ) ^ 2 ≤ ((E : ℚ) : ℝ) := by exact_mod_cast hsq
    have h1 : ((M : ℚ) : ℝ) = Real.sqrt (((M : ℚ) : ℝ) ^ 2) :=
      (Real.sqrt_sq hmae').symm
    show ((M : ℚ) : ℝ) ≤ Real.sqrt ((E : ℚ) : ℝ)
    rw [h1]
    exact Real.sqrt_le_sqrt hsq'

/-- C10 witness: non-negativity and MAE ≤ RMSE at the concrete pair set
actual = [1, 2], predicted = [1, 3]. -/
theorem c10_mae_le_rmse_witness :
    (([1, 2] : List ℚ).length = ([1, 3] : List ℚ).length
      ∧ ([1, 2] : List ℚ) ≠ [])
    ∧ ∃ r : MetricsReport,
      calculate_performance_metrics [1, 2] [1, 3] = some r
      ∧ 0 ≤ r.mae ∧ 0 ≤ r.mse ∧ 0 ≤ rmse r ∧ (r.mae : ℝ) ≤ rmse r :=
  ⟨⟨by decide, by decide⟩, c10_mae_le_rmse [1, 2] [1, 3] rfl (by decide)⟩

/-- C9 witness: the fixed mapping at the concrete choice "1 year". -/
theorem c9_horizon_values_witness :
    "1 year" ∈ horizon_options
    ∧ ∃ d, forecast_days "1 year" = some d
      ∧ (d = 365 ∨ d = 730 ∨ d = 1095 ∨ d = 1825) ∧ d ≠ 0 :=
  ⟨by decide, c9_horizon_values _ (by decide)⟩
